import Mathlib

/-!
Verification of the Scheduling/Record Store of `peluqueria.py`.

The Python program keeps two insertion-ordered dictionaries
(`clientes : dict[str, Cliente]`, `turnos : dict[int, Turno]`) plus a
`next_id` counter, and persists both tables to two CSV files after every
mutation.  We embed the state shallowly: each dictionary becomes an
insertion-ordered association list (Python dicts preserve insertion order;
assignment to an existing key replaces the value in place, assignment to a
fresh key appends), and the two CSV files become `Option`-wrapped lists of
row records held in the state (`none` models an absent file).  Interactive
prompting is peripheral: each business operation takes its already-parsed
inputs as arguments, and dates/times are the `YYYY-MM-DD` / `HH:MM` strings
the program itself stores (`fecha.isoformat()`, `hora.strftime("%H:%M")`).
-/

structure Cliente where
  dni : String
  nombre : String
  telefono : String
deriving Repr, DecidableEq

structure Turno where
  id_turno : Nat
  dni_cliente : String
  fecha : String
  hora : String
  servicio : String
  estado : String
deriving Repr, DecidableEq

/-- A row of `clientes.csv` (all CSV cells are text). -/
structure ClienteRow where
  dni : String
  nombre : String
  telefono : String
deriving Repr, DecidableEq

/-- A row of `turnos.csv`.  `estado` is `none` when the column is absent,
modelling `row.get("estado", "ACTIVO")` in `cargar_datos`. -/
structure TurnoRow where
  id_turno : String
  dni_cliente : String
  fecha : String
  hora : String
  servicio : String
  estado : Option String
deriving Repr, DecidableEq

/-- In-memory state of the program plus the contents of the two CSV files
(`none` = file does not exist). -/
structure Peluqueria where
  clientes : List Cliente
  turnos : List Turno
  next_id : Nat
  savedClientes : Option (List ClienteRow)
  savedTurnos : Option (List TurnoRow)
deriving Repr, DecidableEq

/-- Error taxonomy of the core operations (the Python code reports these as
printed messages and an early `return`). -/
inductive PelError where
  | duplicateClient
  | unknownClient
  | slotConflict
  | notFound
deriving Repr, DecidableEq

/-- The three actions of `modificar_o_cancelar_turno` (menu options 1/2/3). -/
inductive Accion where
  | reschedule (fecha hora : String)
  | changeService (servicio : String)
  | cancel
deriving Repr, DecidableEq

/-- `self.clientes[c.dni] = c`: replace in place when the key exists,
append otherwise. -/
def insertCliente (cs : List Cliente) (c : Cliente) : List Cliente :=
  if cs.any (fun u => u.dni == c.dni) then
    cs.map fun u => if u.dni == c.dni then c else u
  else cs ++ [c]

/-- `self.turnos[t.id_turno] = t`: replace in place when the key exists,
append otherwise. -/
def insertTurno (ts : List Turno) (t : Turno) : List Turno :=
  if ts.any (fun u => u.id_turno == t.id_turno) then
    ts.map fun u => if u.id_turno == t.id_turno then t else u
  else ts ++ [t]

/-- In-place mutation of the `Turno` object stored under key `id` (a dict
holds at most one entry per key, so the map touches at most one entry in
any state whose ids are distinct). -/
def updateTurno (ts : List Turno) (id : Nat) (f : Turno → Turno) : List Turno :=
  ts.map fun t => if t.id_turno == id then f t else t

/-! ### Decimal text codec for appointment identifiers

`csv.DictWriter` stores `id_turno` as its decimal text (`str(int)`) and
`cargar_datos` parses it back with `int(...)`.  We model the codec with a
fuel-indexed structural recursion so that concrete witnesses evaluate in
the kernel.  The store only ever writes the decimal digits of a natural
number, which is the domain the codec covers. -/

/-- The ASCII character of a decimal digit value (codepoint 48 + d). -/
def digitChar (d : Nat) : Char :=
  if d < 10 then Char.ofNat (48 + d) else '*'

/-- The numeric value of an ASCII decimal digit character. -/
def charToDigit? (c : Char) : Option Nat :=
  if c.isDigit then some (c.toNat - 48) else none

/-- Little-endian decimal digits of `n`; `fuel > n` suffices. -/
def toDigitsRev (fuel n : Nat) : List Nat :=
  match fuel with
  | 0 => []
  | fuel + 1 => if n < 10 then [n] else (n % 10) :: toDigitsRev fuel (n / 10)

def natToString (n : Nat) : String :=
  ⟨((toDigitsRev (n + 1) n).reverse.map digitChar)⟩

/-- Digit values of a character list; `none` on the first non-digit. -/
def parseDigits : List Char → Option (List Nat)
  | [] => some []
  | c :: cs =>
    match charToDigit? c with
    | none => none
    | some d => (parseDigits cs).map fun ds => d :: ds

/-- `int(...)` on a cell of decimal digits; any other text raises in Python,
modelled as `none` (load failure). -/
def stringToNat? (s : String) : Option Nat :=
  if s.data.isEmpty then none
  else (parseDigits s.data).map fun ds => ds.foldl (fun a d => 10 * a + d) 0

/-! ### Persistence (`guardar_datos` / `cargar_datos`) -/

def clienteToRow (c : Cliente) : ClienteRow :=
  ⟨c.dni, c.nombre, c.telefono⟩

def turnoToRow (t : Turno) : TurnoRow :=
  ⟨natToString t.id_turno, t.dni_cliente, t.fecha, t.hora, t.servicio, some t.estado⟩

def rowToCliente (r : ClienteRow) : Cliente :=
  ⟨r.dni, r.nombre, r.telefono⟩

def rowToTurno? (r : TurnoRow) : Option Turno :=
  (stringToNat? r.id_turno).map fun n =>
    ⟨n, r.dni_cliente, r.fecha, r.hora, r.servicio, r.estado.getD "ACTIVO"⟩

/-- The row loop of `cargar_datos` over `turnos.csv`: each row becomes a
`Turno`; a row whose id cell `int(...)` cannot parse aborts the load. -/
def parseTurnos : List TurnoRow → Option (List Turno)
  | [] => some []
  | r :: rest =>
    match rowToTurno? r with
    | none => none
    | some t => (parseTurnos rest).map fun ts => t :: ts

/-- `guardar_datos`: rewrite both files completely from the in-memory
mappings, one row per entity, in iteration order. -/
def guardar_datos (s : Peluqueria) : Peluqueria :=
  { s with
    savedClientes := some (s.clientes.map clienteToRow)
    savedTurnos := some (s.turnos.map turnoToRow) }

/-- `cargar_datos` run from the fresh `__init__` state (`clientes = {}`,
`turnos = {}`, `next_id = 1`), given the contents of the two files
(`none` = the file does not exist).  A turno row whose id is not decimal
text makes `int(...)` raise: the whole load fails (`none`). -/
def cargar_datos (cf : Option (List ClienteRow)) (tf : Option (List TurnoRow)) :
    Option Peluqueria :=
  let clientes := match cf with
    | none => []
    | some rows => rows.foldl (fun acc r => insertCliente acc (rowToCliente r)) []
  match tf with
  | none => some ⟨clientes, [], 1, cf, none⟩
  | some rows =>
    match parseTurnos rows with
    | none => none
    | some ts =>
      some ⟨clientes,
            ts.foldl (fun acc t => insertTurno acc t) [],
            (ts.map Turno.id_turno).foldl Nat.max 0 + 1,
            cf, tf⟩

/-! ### Business operations -/

/-- `turno_ocupado`: some appointment is ACTIVO with exactly this
date and time. -/
def turno_ocupado (s : Peluqueria) (fecha hora : String) : Bool :=
  s.turnos.any fun t =>
    t.estado == "ACTIVO" && t.fecha == fecha && t.hora == hora

/-- `registrar_cliente`: fail on duplicate DNI, otherwise insert and
persist. -/
def registrar_cliente (s : Peluqueria) (dni nombre telefono : String) :
    Except PelError Cliente × Peluqueria :=
  if s.clientes.any (fun c => c.dni == dni) then (.error .duplicateClient, s)
  else
    let c : Cliente := ⟨dni, nombre, telefono⟩
    (.ok c, guardar_datos { s with clientes := insertCliente s.clientes c })

/-- `solicitar_turno`: the code first rejects an empty client table
("No hay clientes cargados"), then an unknown DNI ("No existe un cliente
con ese DNI") — both are unknown-client failures in the spec's taxonomy —
then an occupied slot; otherwise it books under `next_id`, increments the
counter and persists. -/
def solicitar_turno (s : Peluqueria) (dni fecha hora servicio : String) :
    Except PelError Turno × Peluqueria :=
  if s.clientes.isEmpty then (.error .unknownClient, s)
  else if (s.clientes.find? fun c => c.dni == dni).isNone then
    (.error .unknownClient, s)
  else if turno_ocupado s fecha hora then (.error .slotConflict, s)
  else
    let t : Turno := ⟨s.next_id, dni, fecha, hora, servicio, "ACTIVO"⟩
    (.ok t, guardar_datos
      { s with turnos := insertTurno s.turnos t, next_id := s.next_id + 1 })

/-- `modificar_o_cancelar_turno`: fail when the turno table is empty or the
id is unknown; reschedule checks `turno_ocupado` on the whole table (the
appointment being modified included), service change and cancellation are
unconditional; every success persists. -/
def modificar_o_cancelar_turno (s : Peluqueria) (id : Nat) (a : Accion) :
    Except PelError Unit × Peluqueria :=
  if s.turnos.isEmpty then (.error .notFound, s)
  else match s.turnos.find? (fun t => t.id_turno == id) with
  | none => (.error .notFound, s)
  | some _ =>
    match a with
    | .reschedule fecha hora =>
      if turno_ocupado s fecha hora then (.error .slotConflict, s)
      else
        let ts := updateTurno s.turnos id fun u => { u with fecha := fecha, hora := hora }
        (.ok (), guardar_datos { s with turnos := ts })
    | .changeService sv =>
        let ts := updateTurno s.turnos id fun u => { u with servicio := sv }
        (.ok (), guardar_datos { s with turnos := ts })
    | .cancel =>
        let ts := updateTurno s.turnos id fun u => { u with estado := "CANCELADO" }
        (.ok (), guardar_datos { s with turnos := ts })

/-- Sort key of `listar_turnos`: Python's tuple order on
`(t.fecha, t.hora)`, i.e. lexicographic string comparison. -/
def turnoKeyLe (t u : Turno) : Bool :=
  decide (t.fecha < u.fecha ∨ (t.fecha = u.fecha ∧ t.hora ≤ u.hora))

/-- `listar_turnos`, option 3 (filter by exact date), followed by the
stable sort on `(fecha, hora)`. -/
def listar_turnos_por_fecha (s : Peluqueria) (fecha : String) : List Turno :=
  ((s.turnos).filter fun t => t.fecha == fecha).mergeSort turnoKeyLe

/-- `listar_turnos`, option 2 (filter by client DNI). -/
def listar_turnos_por_dni (s : Peluqueria) (dni : String) : List Turno :=
  ((s.turnos).filter fun t => t.dni_cliente == dni).mergeSort turnoKeyLe

/-- `listar_turnos`, option 1 (no filter). -/
def listar_turnos_todos (s : Peluqueria) : List Turno :=
  (s.turnos).mergeSort turnoKeyLe

/-! ### Reachable states -/

/-- One menu-level mutating operation with its already-parsed inputs. -/
inductive Op where
  | registrar (dni nombre telefono : String)
  | solicitar (dni fecha hora servicio : String)
  | modificar (id : Nat) (a : Accion)
  | guardarOp
deriving Repr, DecidableEq

def step (s : Peluqueria) : Op → Peluqueria
  | .registrar d n t => (registrar_cliente s d n t).2
  | .solicitar d f h sv => (solicitar_turno s d f h sv).2
  | .modificar i a => (modificar_o_cancelar_turno s i a).2
  | .guardarOp => guardar_datos s

/-- The initial empty store (`__init__` with no persisted files). -/
def initState : Peluqueria := ⟨[], [], 1, none, none⟩

def run (ops : List Op) : Peluqueria := ops.foldl step initState

/-- A sequence of booking requests `(fecha, hora, servicio)` for one
client, issued back to back; collects each outcome. -/
def runBookings (s : Peluqueria) (dni : String) :
    List (String × String × String) → List (Except PelError Turno)
  | [] => []
  | (f, h, sv) :: rest =>
    let r := solicitar_turno s dni f h sv
    r.1 :: runBookings r.2 dni rest

/-! ## Basic specification lemmas -/

theorem turno_ocupado_spec (s : Peluqueria) (fecha hora : String) :
    turno_ocupado s fecha hora = true ↔
      ∃ t ∈ s.turnos, t.estado = "ACTIVO" ∧ t.fecha = fecha ∧ t.hora = hora := by
  simp [turno_ocupado, List.any_eq_true, and_assoc]

theorem turno_ocupado_eq_false (s : Peluqueria) (fecha hora : String) :
    turno_ocupado s fecha hora = false ↔
      ∀ t ∈ s.turnos,
        ¬(t.estado = "ACTIVO" ∧ t.fecha = fecha ∧ t.hora = hora) := by
  rw [← Bool.not_eq_true, turno_ocupado_spec]
  push_neg
  simp [not_and]

theorem insertTurno_eq_append (ts : List Turno) (t : Turno)
    (h : ∀ u ∈ ts, u.id_turno ≠ t.id_turno) : insertTurno ts t = ts ++ [t] := by
  have hany : ts.any (fun u => u.id_turno == t.id_turno) = false := by
    simp only [List.any_eq_false, beq_iff_eq]
    exact h
  simp [insertTurno, hany]

theorem insertCliente_eq_append (cs : List Cliente) (c : Cliente)
    (h : ∀ u ∈ cs, u.dni ≠ c.dni) : insertCliente cs c = cs ++ [c] := by
  have hany : cs.any (fun u => u.dni == c.dni) = false := by
    simp only [List.any_eq_false, beq_iff_eq]
    exact h
  simp [insertCliente, hany]

theorem mem_insertTurno (ts : List Turno) (t : Turno) : t ∈ insertTurno ts t := by
  unfold insertTurno
  split
  · rename_i hany
    obtain ⟨u, hu, hbeq⟩ := List.any_eq_true.mp hany
    exact List.mem_map.mpr ⟨u, hu, by simp [hbeq]⟩
  · exact List.mem_append_right _ (List.mem_singleton.mpr rfl)

/-! ## The slot invariant (claim C2) -/

/-- No two distinct appointment records are both ACTIVO on the same
`(fecha, hora)` slot. -/
def slotOK (t u : Turno) : Prop :=
  ¬(t.estado = "ACTIVO" ∧ u.estado = "ACTIVO" ∧
    t.fecha = u.fecha ∧ t.hora = u.hora)

theorem slotOK_symm : ∀ {t u : Turno}, slotOK t u → slotOK u t := by
  intro t u h hc
  exact h ⟨hc.2.1, hc.1, hc.2.2.1.symm, hc.2.2.2.symm⟩

/-- State invariant maintained by every operation: appointment keys are
distinct, no slot is doubly booked among ACTIVO appointments, and every
key is below the `next_id` counter. -/
def StoreInv (s : Peluqueria) : Prop :=
  s.turnos.Pairwise (fun t u => t.id_turno ≠ u.id_turno) ∧
  s.turnos.Pairwise slotOK ∧
  ∀ t ∈ s.turnos, t.id_turno < s.next_id

theorem inv_initState : StoreInv initState := by
  refine ⟨List.Pairwise.nil, List.Pairwise.nil, ?_⟩
  intro t ht
  simp [initState] at ht

theorem inv_guardar (s : Peluqueria) (h : StoreInv s) : StoreInv (guardar_datos s) := h

theorem inv_registrar (s : Peluqueria) (dni n tel : String) (h : StoreInv s) :
    StoreInv (registrar_cliente s dni n tel).2 := by
  unfold registrar_cliente
  split
  · exact h
  · exact h

theorem inv_solicitar (s : Peluqueria) (dni f hora sv : String) (h : StoreInv s) :
    StoreInv (solicitar_turno s dni f hora sv).2 := by
  obtain ⟨hid, hslot, hlt⟩ := h
  unfold solicitar_turno
  split
  · exact ⟨hid, hslot, hlt⟩
  split
  · exact ⟨hid, hslot, hlt⟩
  split
  · exact ⟨hid, hslot, hlt⟩
  · rename_i hne hfound hocc
    set t : Turno := ⟨s.next_id, dni, f, hora, sv, "ACTIVO"⟩ with ht
    have happ : insertTurno s.turnos t = s.turnos ++ [t] :=
      insertTurno_eq_append _ _ (fun u hu => Nat.ne_of_lt (hlt u hu))
    have hocc' := (turno_ocupado_eq_false s f hora).mp (Bool.not_eq_true _ ▸ hocc)
    refine ⟨?_, ?_, ?_⟩
    · show (insertTurno s.turnos t).Pairwise _
      rw [happ, List.pairwise_append]
      refine ⟨hid, List.pairwise_singleton _ _, ?_⟩
      intro a ha b hb
      rw [List.mem_singleton.mp hb]
      exact Nat.ne_of_lt (hlt a ha)
    · show (insertTurno s.turnos t).Pairwise slotOK
      rw [happ, List.pairwise_append]
      refine ⟨hslot, List.pairwise_singleton _ _, ?_⟩
      intro a ha b hb hc
      rw [List.mem_singleton.mp hb] at hc
      exact hocc' a ha ⟨hc.1, hc.2.2.1, hc.2.2.2⟩
    · show ∀ u ∈ insertTurno s.turnos t, u.id_turno < s.next_id + 1
      rw [happ]
      intro u hu
      rcases List.mem_append.mp hu with hu | hu
      · exact Nat.lt_succ_of_lt (hlt u hu)
      · rw [List.mem_singleton.mp hu]
        exact Nat.lt_succ_self _

theorem inv_modificar (s : Peluqueria) (id : Nat) (a : Accion) (h : StoreInv s) :
    StoreInv (modificar_o_cancelar_turno s id a).2 := by
  obtain ⟨hid, hslot, hlt⟩ := h
  have hkey : ∀ (g : Turno → Turno), (∀ u, (g u).id_turno = u.id_turno) →
      ∀ (s2 : Peluqueria), s2.turnos = updateTurno s.turnos id g →
      s2.next_id = s.next_id →
      s2.turnos.Pairwise (fun t u => t.id_turno ≠ u.id_turno) ∧
      (∀ t ∈ s2.turnos, t.id_turno < s2.next_id) := by
    intro g hg s2 hts hnid
    have hgid : ∀ u : Turno,
        ((if u.id_turno == id then g u else u)).id_turno = u.id_turno := by
      intro u; split <;> simp [hg]
    constructor
    · rw [hts]
      unfold updateTurno
      rw [List.pairwise_map]
      refine hid.imp ?_
      intro a b hab
      rw [hgid a, hgid b]
      exact hab
    · rw [hts, hnid]
      unfold updateTurno
      intro t ht
      obtain ⟨u, hu, rfl⟩ := List.mem_map.mp ht
      rw [hgid u]
      exact hlt u hu
  unfold modificar_o_cancelar_turno
  split
  · exact ⟨hid, hslot, hlt⟩
  split
  · exact ⟨hid, hslot, hlt⟩
  · rename_i hne hfound
    match a with
    | .reschedule fecha hora =>
      simp only
      split
      · exact ⟨hid, hslot, hlt⟩
      · rename_i hocc
        have hocc' := (turno_ocupado_eq_false s fecha hora).mp
          (Bool.not_eq_true _ ▸ hocc)
        set g : Turno → Turno :=
          fun u => { u with fecha := fecha, hora := hora } with hgdef
        show StoreInv (guardar_datos { s with turnos := updateTurno s.turnos id g })
        obtain ⟨h1, h3⟩ := hkey g (fun u => rfl)
          (guardar_datos { s with turnos := updateTurno s.turnos id g }) rfl rfl
        refine ⟨h1, ?_, h3⟩
        show (updateTurno s.turnos id g).Pairwise slotOK
        unfold updateTurno
        rw [List.pairwise_map]
        refine (hid.and hslot).imp_of_mem ?_
        intro a b ha hb hab hc
        by_cases hA : a.id_turno == id <;> by_cases hB : b.id_turno == id
        · exact hab.1 ((beq_iff_eq.mp hA).trans (beq_iff_eq.mp hB).symm)
        · rw [if_pos hA, if_neg hB] at hc
          exact hocc' b hb ⟨hc.2.1, hc.2.2.1.symm, hc.2.2.2.symm⟩
        · rw [if_neg hA, if_pos hB] at hc
          exact hocc' a ha ⟨hc.1, hc.2.2.1, hc.2.2.2⟩
        · rw [if_neg hA, if_neg hB] at hc
          exact hab.2 hc
    | .changeService sv =>
      simp only
      set g : Turno → Turno := fun u => { u with servicio := sv } with hgdef
      show StoreInv (guardar_datos { s with turnos := updateTurno s.turnos id g })
      obtain ⟨h1, h3⟩ := hkey g (fun u => rfl)
        (guardar_datos { s with turnos := updateTurno s.turnos id g }) rfl rfl
      refine ⟨h1, ?_, h3⟩
      show (updateTurno s.turnos id g).Pairwise slotOK
      unfold updateTurno
      rw [List.pairwise_map]
      refine hslot.imp ?_
      intro a b hab hc
      apply hab
      revert hc
      by_cases hA : a.id_turno == id <;> by_cases hB : b.id_turno == id <;>
        simp [hA, hB] <;> intro h1 h2 h3 h4 <;> exact ⟨h1, h2, h3, h4⟩
    | .cancel =>
      simp only
      set g : Turno → Turno := fun u => { u with estado := "CANCELADO" } with hgdef
      show StoreInv (guardar_datos { s with turnos := updateTurno s.turnos id g })
      obtain ⟨h1, h3⟩ := hkey g (fun u => rfl)
        (guardar_datos { s with turnos := updateTurno s.turnos id g }) rfl rfl
      refine ⟨h1, ?_, h3⟩
      show (updateTurno s.turnos id g).Pairwise slotOK
      unfold updateTurno
      rw [List.pairwise_map]
      refine hslot.imp ?_
      intro a b hab hc
      have hne2 : ("CANCELADO" : String) ≠ "ACTIVO" := by decide
      by_cases hA : a.id_turno == id
      · rw [if_pos hA] at hc
        exact hne2 hc.1
      · by_cases hB : b.id_turno == id
        · rw [if_neg hA, if_pos hB] at hc
          exact hne2 hc.2.1
        · rw [if_neg hA, if_neg hB] at hc
          exact hab hc

theorem inv_step (s : Peluqueria) (op : Op) (h : StoreInv s) : StoreInv (step s op) := by
  match op with
  | .registrar d n t => exact inv_registrar s d n t h
  | .solicitar d f hr sv => exact inv_solicitar s d f hr sv h
  | .modificar i a => exact inv_modificar s i a h
  | .guardarOp => exact inv_guardar s h

theorem inv_foldl : ∀ (ops : List Op) (s : Peluqueria), StoreInv s →
    StoreInv (ops.foldl step s)
  | [], s, h => h
  | op :: ops, s, h => inv_foldl ops (step s op) (inv_step s op h)

theorem inv_run (ops : List Op) : StoreInv (run ops) :=
  inv_foldl ops initState inv_initState

/-- C2: in every state reachable from the initial empty store by any
sequence of the store's operations, at most one ACTIVO appointment exists
for any `(fecha, hora)` pair — no two distinct appointment records are
both ACTIVO on the same slot (CANCELADO records never count). -/
theorem C2_slot_invariant (ops : List Op) :
    ((run ops).turnos).Pairwise slotOK :=
  (inv_run ops).2.1

/-- C7: `turno_ocupado` (isSlotTaken) returns `true` iff some appointment
in the store has estado ACTIVO and exactly this `fecha` and `hora`. -/
theorem C7_isSlotTaken_spec (s : Peluqueria) (fecha hora : String) :
    turno_ocupado s fecha hora = true ↔
      ∃ t ∈ s.turnos, t.estado = "ACTIVO" ∧ t.fecha = fecha ∧ t.hora = hora :=
  turno_ocupado_spec s fecha hora

/-! ## Claim C1: rescheduling to the own current slot -/

/-- C1 counterexample: in the reachable store whose only appointment is
id 1, ACTIVO at ("2024-05-01", "10:00"), rescheduling appointment 1 to
that very slot is rejected with a slot conflict, because the conflict
check does not exclude the appointment being modified. -/
theorem C1_counterexample :
    (run [.registrar "111" "Ana" "555",
          .solicitar "111" "2024-05-01" "10:00" "corte"]).turnos =
      [⟨1, "111", "2024-05-01", "10:00", "corte", "ACTIVO"⟩] ∧
    (modificar_o_cancelar_turno
        (run [.registrar "111" "Ana" "555",
              .solicitar "111" "2024-05-01" "10:00" "corte"])
        1 (.reschedule "2024-05-01" "10:00")).1 = .error .slotConflict :=
  ⟨rfl, rfl⟩

/-- C1 (amended): rescheduling an appointment that is ACTIVO to its own
current `(fecha, hora)` slot does not succeed: `modificar_o_cancelar_turno`
reports a SlotConflictError and leaves the state unchanged, because
`turno_ocupado` also sees the appointment being modified. -/
theorem C1_reschedule_self_conflict (s : Peluqueria) (id : Nat) (t : Turno)
    (hfind : s.turnos.find? (fun u => u.id_turno == id) = some t)
    (hact : t.estado = "ACTIVO") :
    modificar_o_cancelar_turno s id (.reschedule t.fecha t.hora) =
      (.error .slotConflict, s) := by
  have hmem : t ∈ s.turnos := List.mem_of_find?_eq_some hfind
  have hocc : turno_ocupado s t.fecha t.hora = true :=
    (turno_ocupado_spec s t.fecha t.hora).mpr ⟨t, hmem, hact, rfl, rfl⟩
  have hne : s.turnos.isEmpty = false := by
    cases hts : s.turnos with
    | nil => rw [hts] at hmem; cases hmem
    | cons a l => rfl
  simp [modificar_o_cancelar_turno, hne, hfind, hocc]

theorem C1_witness :
    modificar_o_cancelar_turno
        (run [.registrar "111" "Ana" "555",
              .solicitar "111" "2024-05-01" "10:00" "corte"])
        1 (.reschedule "2024-05-01" "10:00") =
      (.error .slotConflict,
       run [.registrar "111" "Ana" "555",
            .solicitar "111" "2024-05-01" "10:00" "corte"]) :=
  C1_reschedule_self_conflict _ 1
    ⟨1, "111", "2024-05-01", "10:00", "corte", "ACTIVO"⟩ rfl rfl

/-! ## Claim C6: cancel frees the slot -/

/-- C6: in a store whose ACTIVO appointments occupy pairwise distinct
slots (the invariant of every reachable state), cancelling the ACTIVO
appointment `t` and then booking a known client on `t`'s slot succeeds,
producing a fresh ACTIVO appointment under the current counter value. -/
theorem C6_cancel_then_rebook (s : Peluqueria) (id : Nat) (t : Turno)
    (dni servicio : String)
    (hslot : s.turnos.Pairwise slotOK)
    (hfind : s.turnos.find? (fun u => u.id_turno == id) = some t)
    (hact : t.estado = "ACTIVO")
    (hdni : (s.clientes.find? fun c => c.dni == dni).isSome) :
    (solicitar_turno (modificar_o_cancelar_turno s id .cancel).2
        dni t.fecha t.hora servicio).1 =
      .ok ⟨s.next_id, dni, t.fecha, t.hora, servicio, "ACTIVO"⟩ := by
  have hmem : t ∈ s.turnos := List.mem_of_find?_eq_some hfind
  have htid : t.id_turno = id := by
    have := List.find?_some hfind
    exact beq_iff_eq.mp this
  have hne : s.turnos.isEmpty = false := by
    cases hts : s.turnos with
    | nil => rw [hts] at hmem; cases hmem
    | cons a l => rfl
  set ts2 : List Turno :=
    updateTurno s.turnos id (fun u => { u with estado := "CANCELADO" }) with hts2
  have hs2 : (modificar_o_cancelar_turno s id .cancel).2 =
      guardar_datos { s with turnos := ts2 } := by
    rw [hts2]
    simp [modificar_o_cancelar_turno, hne, hfind]
  rw [hs2]
  have hocc : turno_ocupado (guardar_datos { s with turnos := ts2 })
      t.fecha t.hora = false := by
    rw [turno_ocupado_eq_false]
    intro u' hu' hc
    have hu2 : u' ∈ ts2 := hu'
    rw [hts2] at hu2
    unfold updateTurno at hu2
    obtain ⟨u, hu, rfl⟩ := List.mem_map.mp hu2
    have hne2 : ("CANCELADO" : String) ≠ "ACTIVO" := by decide
    by_cases hB : u.id_turno == id
    · rw [if_pos hB] at hc
      exact hne2 hc.1
    · rw [if_neg hB] at hc
      have hneq : t ≠ u := by
        intro he
        rw [← he] at hB
        simp [htid] at hB
      have hso : slotOK t u :=
        (hslot.forall (fun _ _ h => slotOK_symm h)) hmem hu hneq
      exact hso ⟨hact, hc.1, hc.2.1.symm, hc.2.2.symm⟩
  obtain ⟨c, hc⟩ := Option.isSome_iff_exists.mp hdni
  have hcmem : c ∈ s.clientes := List.mem_of_find?_eq_some hc
  have hcne : s.clientes.isEmpty = false := by
    cases hcs : s.clientes with
    | nil => rw [hcs] at hcmem; cases hcmem
    | cons a l => rfl
  have hnone : (s.clientes.find? fun u => u.dni == dni).isNone = false := by
    rw [hc]; rfl
  simp only [guardar_datos] at hocc
  simp [solicitar_turno, guardar_datos, hcne, hnone, hocc]

theorem C6_witness :
    (solicitar_turno
        (modificar_o_cancelar_turno
          (run [.registrar "111" "Ana" "555",
                .solicitar "111" "2024-05-01" "10:00" "corte"]) 1 .cancel).2
        "111" "2024-05-01" "10:00" "color").1 =
      .ok ⟨2, "111", "2024-05-01", "10:00", "color", "ACTIVO"⟩ :=
  C6_cancel_then_rebook _ 1
    ⟨1, "111", "2024-05-01", "10:00", "corte", "ACTIVO"⟩ "111" "color"
    (show List.Pairwise slotOK
        [⟨1, "111", "2024-05-01", "10:00", "corte", "ACTIVO"⟩] from
      List.Pairwise.cons (fun b hb => absurd hb (List.not_mem_nil b))
        List.Pairwise.nil)
    rfl rfl rfl

/-! ## Claim C10: no state change and no save on error -/

/-- C10: whenever `registrar_cliente`, `solicitar_turno` or
`modificar_o_cancelar_turno` fails, the entire state — client table,
appointment table, counter, and both persisted files — is returned
exactly as it was; in particular no save happens. -/
theorem C10_error_atomicity (s : Peluqueria) :
    (∀ dni n tel e, (registrar_cliente s dni n tel).1 = .error e →
      (registrar_cliente s dni n tel).2 = s) ∧
    (∀ dni f h sv e, (solicitar_turno s dni f h sv).1 = .error e →
      (solicitar_turno s dni f h sv).2 = s) ∧
    (∀ id a e, (modificar_o_cancelar_turno s id a).1 = .error e →
      (modificar_o_cancelar_turno s id a).2 = s) := by
  refine ⟨?_, ?_, ?_⟩
  · intro dni n tel e
    unfold registrar_cliente
    split
    · intro _; rfl
    · intro h; simp at h
  · intro dni f h sv e
    unfold solicitar_turno
    split
    · intro _; rfl
    split
    · intro _; rfl
    split
    · intro _; rfl
    · intro hh; simp at hh
  · intro id a e
    unfold modificar_o_cancelar_turno
    split
    · intro _; rfl
    split
    · intro _; rfl
    · match a with
      | .reschedule fecha hora =>
        simp only
        split
        · intro _; rfl
        · intro hh; simp at hh
      | .changeService sv => intro hh; simp at hh
      | .cancel => intro hh; simp at hh

theorem C10_witness :
    (solicitar_turno (run [.registrar "111" "Ana" "555"])
        "999" "2024-01-01" "09:00" "corte").2 =
      run [.registrar "111" "Ana" "555"] :=
  (C10_error_atomicity _).2.1 "999" "2024-01-01" "09:00" "corte"
    .unknownClient rfl

/-! ## Claim C4: distinct slots book successfully with ids 1, 2, 3, ... -/

theorem runBookings_spec (dni : String) :
    ∀ (reqs : List (String × String × String)) (s : Peluqueria),
    (s.clientes.find? fun c => c.dni == dni).isSome →
    (∀ u ∈ s.turnos, u.id_turno < s.next_id) →
    (∀ r ∈ reqs, turno_ocupado s r.1 r.2.1 = false) →
    reqs.Pairwise (fun a b => a.1 ≠ b.1 ∨ a.2.1 ≠ b.2.1) →
    runBookings s dni reqs =
      (List.range' s.next_id reqs.length).zipWith
        (fun i r => Except.ok ⟨i, dni, r.1, r.2.1, r.2.2, "ACTIVO"⟩) reqs := by
  intro reqs
  induction reqs with
  | nil => intro s _ _ _ _; rfl
  | cons r rest ih =>
    obtain ⟨f, hr, sv⟩ := r
    intro s hcli hbound hfree hdist
    obtain ⟨c, hcf⟩ := Option.isSome_iff_exists.mp hcli
    have hcmem : c ∈ s.clientes := List.mem_of_find?_eq_some hcf
    have hcl_ne : s.clientes.isEmpty = false := by
      cases hcs : s.clientes with
      | nil => rw [hcs] at hcmem; cases hcmem
      | cons a l => rfl
    have hnone : (s.clientes.find? fun u => u.dni == dni).isNone = false := by
      rw [hcf]; rfl
    have hocc0 : turno_ocupado s f hr = false :=
      hfree (f, hr, sv) (List.mem_cons_self _ _)
    have happ : insertTurno s.turnos ⟨s.next_id, dni, f, hr, sv, "ACTIVO"⟩ =
        s.turnos ++ [⟨s.next_id, dni, f, hr, sv, "ACTIVO"⟩] :=
      insertTurno_eq_append _ _ (fun u hu => Nat.ne_of_lt (hbound u hu))
    have hstep : solicitar_turno s dni f hr sv =
        (.ok ⟨s.next_id, dni, f, hr, sv, "ACTIVO"⟩,
         guardar_datos { s with
           turnos := insertTurno s.turnos ⟨s.next_id, dni, f, hr, sv, "ACTIVO"⟩,
           next_id := s.next_id + 1 }) := by
      simp [solicitar_turno, hcl_ne, hnone, hocc0]
    obtain ⟨hd1, hd2⟩ := List.pairwise_cons.mp hdist
    have hrec : runBookings
        (guardar_datos { s with
           turnos := insertTurno s.turnos ⟨s.next_id, dni, f, hr, sv, "ACTIVO"⟩,
           next_id := s.next_id + 1 }) dni rest =
        (List.range' (s.next_id + 1) rest.length).zipWith
          (fun i r => Except.ok ⟨i, dni, r.1, r.2.1, r.2.2, "ACTIVO"⟩) rest := by
      apply ih
      · exact Option.isSome_iff_exists.mpr ⟨c, hcf⟩
      · show ∀ u ∈ insertTurno s.turnos ⟨s.next_id, dni, f, hr, sv, "ACTIVO"⟩,
          u.id_turno < s.next_id + 1
        rw [happ]
        intro u hu
        rcases List.mem_append.mp hu with hu | hu
        · exact Nat.lt_succ_of_lt (hbound u hu)
        · rw [List.mem_singleton.mp hu]
          exact Nat.lt_succ_self _
      · intro r' hr'
        rw [turno_ocupado_eq_false]
        intro u hu hcon
        have hu2 : u ∈ insertTurno s.turnos ⟨s.next_id, dni, f, hr, sv, "ACTIVO"⟩ := hu
        rw [happ] at hu2
        rcases List.mem_append.mp hu2 with hu2 | hu2
        · exact (turno_ocupado_eq_false s r'.1 r'.2.1).mp
            (hfree r' (List.mem_cons_of_mem _ hr')) u hu2 hcon
        · rw [List.mem_singleton.mp hu2] at hcon
          rcases hd1 r' hr' with hne | hne
          · exact hne hcon.2.1
          · exact hne hcon.2.2
      · exact hd2
    show runBookings s dni ((f, hr, sv) :: rest) = _
    rw [runBookings, hstep]
    simp only
    rw [hrec]
    rw [List.length_cons, List.range'_succ, List.zipWith_cons_cons]

/-- C4: from the empty store, after registering one client, any sequence
of bookings for that client whose `(fecha, hora)` pairs are pairwise
distinct succeeds entirely, and the appointments receive identifiers
1, 2, 3, ... in order of assignment. -/
theorem C4_distinct_bookings (reqs : List (String × String × String))
    (dni nombre telefono : String)
    (hdist : reqs.Pairwise (fun a b => a.1 ≠ b.1 ∨ a.2.1 ≠ b.2.1)) :
    runBookings (registrar_cliente initState dni nombre telefono).2 dni reqs =
      (List.range' 1 reqs.length).zipWith
        (fun i r => Except.ok ⟨i, dni, r.1, r.2.1, r.2.2, "ACTIVO"⟩) reqs := by
  have := runBookings_spec dni reqs
    (registrar_cliente initState dni nombre telefono).2
    (by simp [registrar_cliente, initState, insertCliente, guardar_datos])
    (by intro u hu; cases hu)
    (by intro r hrr; rfl)
    hdist
  exact this

theorem C4_witness :
    runBookings (registrar_cliente initState "111" "Ana" "555").2 "111"
        [("2024-05-01", "10:00", "corte"), ("2024-05-02", "10:00", "color")] =
      [Except.ok ⟨1, "111", "2024-05-01", "10:00", "corte", "ACTIVO"⟩,
       Except.ok ⟨2, "111", "2024-05-02", "10:00", "color", "ACTIVO"⟩] :=
  C4_distinct_bookings _ "111" "Ana" "555"
    (by
      refine List.Pairwise.cons ?_
        (List.Pairwise.cons (fun b hb => absurd hb (List.not_mem_nil b))
          List.Pairwise.nil)
      intro b hb
      rw [List.mem_singleton.mp hb]
      exact Or.inl (by decide))

/-! ## Claim C5: the booking contract -/

/-- C5: booking fails with the unknown-client error when the DNI is not in
the client table; otherwise fails with the slot-conflict error when the
slot is occupied by an ACTIVO appointment; otherwise it returns an ACTIVO
appointment carrying the current counter value and the given fields,
inserts it, increments the counter, and persists both tables. -/
theorem C5_bookAppointment_contract (s : Peluqueria)
    (dni fecha hora servicio : String) :
    ((s.clientes.find? fun c => c.dni == dni) = none →
      solicitar_turno s dni fecha hora servicio = (.error .unknownClient, s)) ∧
    ((s.clientes.find? fun c => c.dni == dni).isSome →
      turno_ocupado s fecha hora = true →
      solicitar_turno s dni fecha hora servicio = (.error .slotConflict, s)) ∧
    ((s.clientes.find? fun c => c.dni == dni).isSome →
      turno_ocupado s fecha hora = false →
      ∃ t : Turno,
        (solicitar_turno s dni fecha hora servicio).1 = .ok t ∧
        t.id_turno = s.next_id ∧ t.dni_cliente = dni ∧ t.fecha = fecha ∧
        t.hora = hora ∧ t.servicio = servicio ∧ t.estado = "ACTIVO" ∧
        t ∈ (solicitar_turno s dni fecha hora servicio).2.turnos ∧
        (solicitar_turno s dni fecha hora servicio).2.next_id = s.next_id + 1 ∧
        (solicitar_turno s dni fecha hora servicio).2.clientes = s.clientes ∧
        (solicitar_turno s dni fecha hora servicio).2.savedTurnos =
          some ((solicitar_turno s dni fecha hora servicio).2.turnos.map
            turnoToRow) ∧
        (solicitar_turno s dni fecha hora servicio).2.savedClientes =
          some ((solicitar_turno s dni fecha hora servicio).2.clientes.map
            clienteToRow)) := by
  refine ⟨?_, ?_, ?_⟩
  · intro hf
    by_cases he : s.clientes.isEmpty <;> simp [solicitar_turno, he, hf]
  · intro hsome hocc
    obtain ⟨c, hcf⟩ := Option.isSome_iff_exists.mp hsome
    have hcmem : c ∈ s.clientes := List.mem_of_find?_eq_some hcf
    have hcl_ne : s.clientes.isEmpty = false := by
      cases hcs : s.clientes with
      | nil => rw [hcs] at hcmem; cases hcmem
      | cons a l => rfl
    have hnone : (s.clientes.find? fun u => u.dni == dni).isNone = false := by
      rw [hcf]; rfl
    simp [solicitar_turno, hcl_ne, hnone, hocc]
  · intro hsome hocc
    obtain ⟨c, hcf⟩ := Option.isSome_iff_exists.mp hsome
    have hcmem : c ∈ s.clientes := List.mem_of_find?_eq_some hcf
    have hcl_ne : s.clientes.isEmpty = false := by
      cases hcs : s.clientes with
      | nil => rw [hcs] at hcmem; cases hcmem
      | cons a l => rfl
    have hnone : (s.clientes.find? fun u => u.dni == dni).isNone = false := by
      rw [hcf]; rfl
    have hstep : solicitar_turno s dni fecha hora servicio =
        (.ok ⟨s.next_id, dni, fecha, hora, servicio, "ACTIVO"⟩,
         guardar_datos { s with
           turnos := insertTurno s.turnos
             ⟨s.next_id, dni, fecha, hora, servicio, "ACTIVO"⟩,
           next_id := s.next_id + 1 }) := by
      simp [solicitar_turno, hcl_ne, hnone, hocc]
    refine ⟨⟨s.next_id, dni, fecha, hora, servicio, "ACTIVO"⟩,
      ?_, rfl, rfl, rfl, rfl, rfl, rfl, ?_, ?_, ?_, ?_, ?_⟩
    · rw [hstep]
    · rw [hstep]
      exact mem_insertTurno s.turnos _
    · rw [hstep]; rfl
    · rw [hstep]; rfl
    · rw [hstep]; rfl
    · rw [hstep]; rfl

theorem C5_witness :
    solicitar_turno
        (run [.registrar "111" "Ana" "555",
              .solicitar "111" "2024-05-01" "10:00" "corte"])
        "111" "2024-05-01" "10:00" "color" =
      (.error .slotConflict,
       run [.registrar "111" "Ana" "555",
            .solicitar "111" "2024-05-01" "10:00" "corte"]) :=
  (C5_bookAppointment_contract _ "111" "2024-05-01" "10:00" "color").2.1 rfl rfl

/-! ## Codec round-trip lemmas (for claims C3 and C8) -/

theorem charToDigit_digitChar (d : Nat) (h : d < 10) :
    charToDigit? (digitChar d) = some d := by
  interval_cases d <;> rfl

theorem toDigitsRev_ne_nil (fuel n : Nat) (h : 0 < fuel) :
    toDigitsRev fuel n ≠ [] := by
  cases fuel with
  | zero => omega
  | succ fuel =>
    rw [toDigitsRev]
    split <;> simp

theorem toDigitsRev_lt (fuel : Nat) :
    ∀ n, n < fuel → ∀ d ∈ toDigitsRev fuel n, d < 10 := by
  induction fuel with
  | zero => intro n hn; omega
  | succ fuel ih =>
    intro n hn d hd
    rw [toDigitsRev] at hd
    split at hd
    · rw [List.mem_singleton.mp hd]
      assumption
    · rename_i hge
      rcases List.mem_cons.mp hd with hd | hd
      · rw [hd]
        exact Nat.mod_lt _ (by omega)
      · have hdiv : n / 10 < n := Nat.div_lt_self (by omega) (by omega)
        exact ih (n / 10) (by omega) d hd

theorem foldr_toDigitsRev (fuel : Nat) :
    ∀ n, n < fuel →
      (toDigitsRev fuel n).foldr (fun d a => 10 * a + d) 0 = n := by
  induction fuel with
  | zero => intro n hn; omega
  | succ fuel ih =>
    intro n hn
    rw [toDigitsRev]
    split
    · simp
    · rename_i hge
      have hdiv : n / 10 < n := Nat.div_lt_self (by omega) (by omega)
      rw [List.foldr_cons, ih (n / 10) (by omega)]
      omega

theorem parseDigits_map_digitChar (l : List Nat) (h : ∀ d ∈ l, d < 10) :
    parseDigits (l.map digitChar) = some l := by
  induction l with
  | nil => rfl
  | cons d rest ih =>
    rw [List.map_cons, parseDigits,
      charToDigit_digitChar d (h d (List.mem_cons_self _ _)),
      ih (fun x hx => h x (List.mem_cons_of_mem _ hx))]
    rfl

theorem stringToNat_natToString (n : Nat) : stringToNat? (natToString n) = some n := by
  have hlt : ∀ d ∈ (toDigitsRev (n + 1) n).reverse, d < 10 := by
    intro d hd
    exact toDigitsRev_lt (n + 1) n (Nat.lt_succ_self n) d (List.mem_reverse.mp hd)
  have hdata : (natToString n).data = (toDigitsRev (n + 1) n).reverse.map digitChar := rfl
  unfold stringToNat?
  rw [hdata, parseDigits_map_digitChar _ hlt]
  have hne : (toDigitsRev (n + 1) n).reverse.map digitChar ≠ [] := by
    intro he
    exact toDigitsRev_ne_nil (n + 1) n (Nat.succ_pos n)
      (List.reverse_eq_nil_iff.mp (List.map_eq_nil.mp he))
  rw [if_neg (by simpa [List.isEmpty_iff] using hne)]
  rw [Option.map_some']
  congr 1
  rw [List.foldl_reverse]
  exact foldr_toDigitsRev (n + 1) n (Nat.lt_succ_self n)

theorem rowToTurno_turnoToRow (t : Turno) : rowToTurno? (turnoToRow t) = some t := by
  unfold rowToTurno? turnoToRow
  rw [stringToNat_natToString]
  rfl

theorem parseTurnos_map_turnoToRow (ts : List Turno) :
    parseTurnos (ts.map turnoToRow) = some ts := by
  induction ts with
  | nil => rfl
  | cons t rest ih =>
    rw [List.map_cons, parseTurnos, rowToTurno_turnoToRow, ih]
    rfl

theorem foldl_insertTurno (ts : List Turno) :
    ∀ acc : List Turno,
      (∀ t ∈ ts, ∀ u ∈ acc, u.id_turno ≠ t.id_turno) →
      (ts.map Turno.id_turno).Nodup →
      ts.foldl (fun a t => insertTurno a t) acc = acc ++ ts := by
  induction ts with
  | nil => intro acc _ _; simp
  | cons t rest ih =>
    intro acc hdisj hnodup
    have hnodup2 : (∀ x ∈ rest, ¬x.id_turno = t.id_turno) ∧
        (rest.map Turno.id_turno).Nodup := by simpa using hnodup
    rw [List.foldl_cons,
      insertTurno_eq_append _ _ (fun u hu => hdisj t (List.mem_cons_self _ _) u hu),
      ih (acc ++ [t]) ?_ hnodup2.2]
    · simp
    · intro t' ht' u hu
      rcases List.mem_append.mp hu with hu | hu
      · exact hdisj t' (List.mem_cons_of_mem _ ht') u hu
      · rw [List.mem_singleton.mp hu]
        exact fun he => hnodup2.1 t' ht' he.symm

theorem foldl_insertCliente (cs : List Cliente) :
    ∀ acc : List Cliente,
      (∀ c ∈ cs, ∀ u ∈ acc, u.dni ≠ c.dni) →
      (cs.map Cliente.dni).Nodup →
      cs.foldl (fun a c => insertCliente a c) acc = acc ++ cs := by
  induction cs with
  | nil => intro acc _ _; simp
  | cons c rest ih =>
    intro acc hdisj hnodup
    have hnodup2 : (∀ x ∈ rest, ¬x.dni = c.dni) ∧
        (rest.map Cliente.dni).Nodup := by simpa using hnodup
    rw [List.foldl_cons,
      insertCliente_eq_append _ _ (fun u hu => hdisj c (List.mem_cons_self _ _) u hu),
      ih (acc ++ [c]) ?_ hnodup2.2]
    · simp
    · intro c' hc' u hu
      rcases List.mem_append.mp hu with hu | hu
      · exact hdisj c' (List.mem_cons_of_mem _ hc') u hu
      · rw [List.mem_singleton.mp hu]
        exact fun he => hnodup2.1 c' hc' he.symm

/-! ## Claim C3: save/load round trip -/

/-- C3: for any in-memory state whose table keys are distinct (as they are
in a Python dict), saving and then loading from the saved files succeeds
and reproduces both tables field for field. -/
theorem C3_save_load_round_trip (s : Peluqueria)
    (hc : (s.clientes.map Cliente.dni).Nodup)
    (ht : (s.turnos.map Turno.id_turno).Nodup) :
    ∃ s2 : Peluqueria,
      cargar_datos (guardar_datos s).savedClientes (guardar_datos s).savedTurnos =
        some s2 ∧
      s2.clientes = s.clientes ∧ s2.turnos = s.turnos := by
  have hcl : (s.clientes.map clienteToRow).foldl
      (fun acc r => insertCliente acc (rowToCliente r)) [] = s.clientes := by
    rw [List.foldl_map]
    simpa using foldl_insertCliente s.clientes []
      (fun c _ u hu => absurd hu (List.not_mem_nil u)) hc
  have hts : s.turnos.foldl (fun acc t => insertTurno acc t) [] = s.turnos := by
    simpa using foldl_insertTurno s.turnos []
      (fun t _ u hu => absurd hu (List.not_mem_nil u)) ht
  have hload : cargar_datos (some (s.clientes.map clienteToRow))
      (some (s.turnos.map turnoToRow)) =
      some ⟨s.clientes, s.turnos,
            (s.turnos.map Turno.id_turno).foldl Nat.max 0 + 1,
            some (s.clientes.map clienteToRow),
            some (s.turnos.map turnoToRow)⟩ := by
    simp [cargar_datos, parseTurnos_map_turnoToRow, hcl, hts]
  exact ⟨_, hload, rfl, rfl⟩

theorem C3_witness :
    ∃ s2 : Peluqueria,
      cargar_datos
          (guardar_datos (run [.registrar "111" "Ana" "555",
            .solicitar "111" "2024-05-01" "10:00" "corte"])).savedClientes
          (guardar_datos (run [.registrar "111" "Ana" "555",
            .solicitar "111" "2024-05-01" "10:00" "corte"])).savedTurnos =
        some s2 ∧
      s2.clientes = (run [.registrar "111" "Ana" "555",
            .solicitar "111" "2024-05-01" "10:00" "corte"]).clientes ∧
      s2.turnos = (run [.registrar "111" "Ana" "555",
            .solicitar "111" "2024-05-01" "10:00" "corte"]).turnos :=
  C3_save_load_round_trip _ (by decide) (by decide)

/-! ## Claim C8: counter restoration and absent files -/

theorem foldl_max_eq_of_max? : ∀ (l : List Nat) (m : Nat),
    l.max? = some m → l.foldl Nat.max 0 = m := by
  intro l m hm
  cases l with
  | nil => cases hm
  | cons a as =>
    rw [List.max?_cons'] at hm
    injection hm with hm
    rw [List.foldl_cons]
    show List.foldl max (max 0 a) as = m
    rw [Nat.zero_max]
    exact hm

/-- C8: loading with no `turnos.csv` leaves the appointment table empty
and the counter at 1; loading a present file whose rows parse as `ts`
sets the counter to 1 when no appointment was read, and to the maximum
identifier read plus 1 otherwise. -/
theorem C8_load_counter (cf : Option (List ClienteRow)) :
    (∃ cl, cargar_datos cf none = some ⟨cl, [], 1, cf, none⟩) ∧
    (∀ (rows : List TurnoRow) (ts : List Turno) (s2 : Peluqueria),
      parseTurnos rows = some ts →
      cargar_datos cf (some rows) = some s2 →
      ((ts = [] → s2.next_id = 1) ∧
       ∀ m, (ts.map Turno.id_turno).max? = some m → s2.next_id = m + 1)) := by
  constructor
  · exact ⟨_, rfl⟩
  · intro rows ts s2 hparse hload
    have hnid : s2.next_id = (ts.map Turno.id_turno).foldl Nat.max 0 + 1 := by
      cases cf with
      | none =>
        have hred : cargar_datos none (some rows) =
            some ⟨[], ts.foldl (fun acc t => insertTurno acc t) [],
                  (ts.map Turno.id_turno).foldl Nat.max 0 + 1,
                  none, some rows⟩ := by
          simp [cargar_datos, hparse]
        rw [hred] at hload
        rw [← Option.some.inj hload]
      | some crows =>
        have hred : cargar_datos (some crows) (some rows) =
            some ⟨crows.foldl (fun acc r => insertCliente acc (rowToCliente r)) [],
                  ts.foldl (fun acc t => insertTurno acc t) [],
                  (ts.map Turno.id_turno).foldl Nat.max 0 + 1,
                  some crows, some rows⟩ := by
          simp [cargar_datos, hparse]
        rw [hred] at hload
        rw [← Option.some.inj hload]
    constructor
    · intro hts
      rw [hnid, hts]
      rfl
    · intro m hm
      rw [hnid, foldl_max_eq_of_max? _ m hm]

theorem C8_witness :
    (⟨[], [⟨5, "111", "2024-05-01", "10:00", "corte", "ACTIVO"⟩], 6, none,
      some [⟨"5", "111", "2024-05-01", "10:00", "corte", some "ACTIVO"⟩]⟩ :
        Peluqueria).next_id = 5 + 1 :=
  ((C8_load_counter none).2
    [⟨"5", "111", "2024-05-01", "10:00", "corte", some "ACTIVO"⟩]
    [⟨5, "111", "2024-05-01", "10:00", "corte", "ACTIVO"⟩]
    ⟨[], [⟨5, "111", "2024-05-01", "10:00", "corte", "ACTIVO"⟩], 6, none,
      some [⟨"5", "111", "2024-05-01", "10:00", "corte", some "ACTIVO"⟩]⟩
    rfl rfl).2 5 rfl

/-! ## Claim C9: listing by date -/

theorem turnoKeyLe_trans : ∀ (a b c : Turno),
    turnoKeyLe a b → turnoKeyLe b c → turnoKeyLe a c := by
  intro a b c hab hbc
  simp only [turnoKeyLe, decide_eq_true_eq] at hab hbc ⊢
  rcases hab with h1 | ⟨h1, h1'⟩ <;> rcases hbc with h2 | ⟨h2, h2'⟩
  · exact Or.inl (lt_trans h1 h2)
  · exact Or.inl (h2 ▸ h1)
  · exact Or.inl (h1 ▸ h2)
  · exact Or.inr ⟨h1.trans h2, le_trans h1' h2'⟩

theorem turnoKeyLe_total : ∀ (a b : Turno),
    turnoKeyLe a b || turnoKeyLe b a := by
  intro a b
  simp only [turnoKeyLe, Bool.or_eq_true, decide_eq_true_eq]
  rcases lt_trichotomy a.fecha b.fecha with h | h | h
  · exact Or.inl (Or.inl h)
  · rcases le_total a.hora b.hora with h' | h'
    · exact Or.inl (Or.inr ⟨h, h'⟩)
    · exact Or.inr (Or.inr ⟨h.symm, h'⟩)
  · exact Or.inr (Or.inl h)

/-- C9: the date-filtered listing holds exactly the appointments whose
`fecha` equals the filter (same multiset as the filtered table), and is
sorted ascending by the `(fecha, hora)` key. -/
theorem C9_list_by_date (s : Peluqueria) (fecha : String) :
    (∀ t, t ∈ listar_turnos_por_fecha s fecha ↔ t ∈ s.turnos ∧ t.fecha = fecha) ∧
    List.Perm (listar_turnos_por_fecha s fecha)
      (s.turnos.filter (fun t => t.fecha == fecha)) ∧
    (listar_turnos_por_fecha s fecha).Pairwise
      (fun t u => turnoKeyLe t u = true) := by
  refine ⟨?_, ?_, ?_⟩
  · intro t
    unfold listar_turnos_por_fecha
    rw [List.mem_mergeSort, List.mem_filter]
    simp
  · exact List.mergeSort_perm _ _
  · exact List.sorted_mergeSort turnoKeyLe_trans turnoKeyLe_total _
